import Mathlib

/-!
Verification of the nexxeln/smtp-server repository (Go, three source files:
src/main.go, src/unnamed/part_000 async variant, src/unnamed/part_001 minimal
synchronous variant).  Each Go function used by the claims is embedded as an
executable Lean definition, translated from the source.
-/

/-! ## The recipient validator, src/main.go lines 183-191 (same function in
both unnamed variants).

The Go code calls regexp.MatchString with the constant pattern

  caret, group star of (class local-part chars, plus, optional literal dot),
  one local-part char, at-sign, group plus of (alnum, alnum-or-dash star,
  literal dot), two-or-more A-Z, dollar, literal slash, literal letter i

transcribed below constructor by constructor.  Go RE2 semantics: MatchString
reports whether the pattern matches anywhere in the string; the caret matches
only at the start of the text and the dollar only at the end of the text (the
multi-line flag is not set).  The two characters after the dollar are ordinary
literals: in Go the slash-i is not a flag, it is part of the pattern text. -/

inductive Regex where
  | eps : Regex
  | cls : (Char → Bool) → Regex
  | seq : Regex → Regex → Regex
  | opt : Regex → Regex
  | star : Regex → Regex
  | begT : Regex
  | endT : Regex

/-- A single literal character, as RE2 treats an ordinary character. -/
def Regex.chr (c : Char) : Regex := .cls (fun d => d == c)

/-- RE2 plus quantifier: one occurrence then a star. -/
def Regex.plus (r : Regex) : Regex := .seq r (.star r)

/-- RE2 at-least-two quantifier: two occurrences then a star. -/
def Regex.twoPlus (r : Regex) : Regex := .seq r (.seq r (.star r))

/-- Reachable end positions of zero or more repetitions of a step function,
bounded by fuel; used to interpret the star operator. -/
def starMatch (step : Nat → List Nat) : Nat → Nat → List Nat
  | 0, i => [i]
  | fuel + 1, i => i :: ((step i).map (fun j => starMatch step fuel j)).flatten

/-- End positions of a match of the regex starting at position i of the full
character list.  The begT and endT anchors consult the absolute position, as
RE2 caret and dollar do over the whole text.  A star never needs more than
length-many repetitions that make progress, so fuel length+1 is exact for the
patterns of this program (every starred group consumes at least one char). -/
def matchAt (full : List Char) : Regex → Nat → List Nat
  | .eps, i => [i]
  | .cls p, i =>
      match full[i]? with
      | some c => if p c then [i + 1] else []
      | none => []
  | .seq a b, i => ((matchAt full a i).map (fun j => matchAt full b j)).flatten
  | .opt a, i => i :: matchAt full a i
  | .star a, i => starMatch (fun j => matchAt full a j) (full.length + 1) i
  | .begT, i => if i = 0 then [0] else []
  | .endT, i => if i = full.length then [i] else []

/-- Go regexp.MatchString semantics: the pattern matches somewhere in the
string (any start position). -/
def regexMatches (r : Regex) (s : String) : Bool :=
  (List.range (s.data.length + 1)).any (fun i => !(matchAt s.data r i).isEmpty)

/-- Character class of the local part: A-Z, 0-9, underscore, plus, minus. -/
def localCls (c : Char) : Bool :=
  ('A' ≤ c && c ≤ 'Z') || ('0' ≤ c && c ≤ '9') || c == '_' || c == '+' || c == '-'

/-- Character class A-Z or 0-9. -/
def alnumCls (c : Char) : Bool :=
  ('A' ≤ c && c ≤ 'Z') || ('0' ≤ c && c ≤ '9')

/-- Character class A-Z, 0-9 or dash. -/
def alnumDashCls (c : Char) : Bool := alnumCls c || c == '-'

/-- Character class A-Z. -/
def alphaCls (c : Char) : Bool := 'A' ≤ c && c ≤ 'Z'

/-- The starred local-part group: one or more local chars then an optional
literal dot. -/
def dotRuns : Regex := .star (.seq (Regex.plus (.cls localCls)) (.opt (.chr '.')))

/-- One domain label: an alnum char, any number of alnum-or-dash chars, then a
literal dot. -/
def domainLabel : Regex := .seq (.cls alnumCls) (.seq (.star (.cls alnumDashCls)) (.chr '.'))

/-- The final label: two or more A-Z characters. -/
def tld : Regex := Regex.twoPlus (.cls alphaCls)

/-- The email pattern up to the dollar anchor, parametrised by what follows
the final label. -/
def emailBody (tail : Regex) : Regex :=
  .seq .begT (.seq dotRuns (.seq (.cls localCls)
    (.seq (.chr '@') (.seq (Regex.plus domainLabel) (.seq tld tail)))))

/-- What the Go pattern puts after the final label: the dollar anchor followed
by the two literal characters slash and i (a JavaScript-style flag that in Go
is plain pattern text). -/
def dollarSlashI : Regex := .seq .endT (.seq (.chr '/') (.chr 'i'))

/-- The full pattern of the Go source, exactly as written there. -/
def emailPattern : Regex := emailBody dollarSlashI

/-- src/main.go isValidEmail: MatchString of the constant pattern against the
input.  The pattern is syntactically valid RE2, so the error branch of
MatchString is never taken and the function returns the match result; it is a
total boolean function (it never raises). -/
def isValidEmail (email : String) : Bool := regexMatches emailPattern email

/-! ### The validator matches nothing

A match of the full pattern must pass the endT anchor (position = length of
the text) and then still consume the literal slash, which would need a
character at or after the end of the text.  So the pattern is unsatisfiable
and isValidEmail returns false on every input. -/

theorem join_map_nil (f : Nat → List Nat) (h : ∀ x, f x = []) :
    ∀ l : List Nat, (l.map f).flatten = []
  | [] => rfl
  | x :: xs => by simp [h x, join_map_nil f h xs]

theorem matchAt_cls_at_end (full : List Char) (p : Char → Bool) (i : Nat)
    (h : full.length ≤ i) : matchAt full (.cls p) i = [] := by
  simp [matchAt, List.getElem?_eq_none h]

theorem matchAt_seq_nil (full : List Char) (a b : Regex)
    (h : ∀ j, matchAt full b j = []) (i : Nat) :
    matchAt full (.seq a b) i = [] := by
  simpa [matchAt] using join_map_nil (fun j => matchAt full b j) h (matchAt full a i)

theorem dollarSlashI_nil (full : List Char) (i : Nat) :
    matchAt full dollarSlashI i = [] := by
  unfold dollarSlashI
  by_cases h : i = full.length
  · subst h
    have hs : matchAt full (.seq (Regex.chr '/') (Regex.chr 'i')) full.length = [] := by
      simp [Regex.chr, matchAt, List.getElem?_eq_none (le_refl full.length)]
    simp [matchAt, hs]
  · simp [matchAt, h]

/-- The Go validator rejects every string: the trailing slash-i literals can
never be matched after the dollar anchor. -/
theorem isValidEmail_eq_false (s : String) : isValidEmail s = false := by
  have h6 : ∀ j, matchAt s.data dollarSlashI j = [] := dollarSlashI_nil s.data
  have h5 : ∀ j, matchAt s.data (.seq tld dollarSlashI) j = [] :=
    matchAt_seq_nil s.data tld dollarSlashI h6
  have h4 : ∀ j,
      matchAt s.data (.seq (Regex.plus domainLabel) (.seq tld dollarSlashI)) j = [] :=
    matchAt_seq_nil s.data _ _ h5
  have h3 : ∀ j, matchAt s.data
      (.seq (Regex.chr '@') (.seq (Regex.plus domainLabel) (.seq tld dollarSlashI))) j = [] :=
    matchAt_seq_nil s.data _ _ h4
  have h2 : ∀ j, matchAt s.data (.seq (.cls localCls)
      (.seq (Regex.chr '@') (.seq (Regex.plus domainLabel) (.seq tld dollarSlashI)))) j = [] :=
    matchAt_seq_nil s.data _ _ h3
  have h1 : ∀ j, matchAt s.data (.seq dotRuns (.seq (.cls localCls)
      (.seq (Regex.chr '@') (.seq (Regex.plus domainLabel) (.seq tld dollarSlashI))))) j = [] :=
    matchAt_seq_nil s.data _ _ h2
  have h0 : ∀ j, matchAt s.data emailPattern j = [] := by
    intro j
    exact matchAt_seq_nil s.data _ _ h1 j
  unfold isValidEmail regexMatches
  rw [List.any_eq_false]
  intro i _
  simp [h0 i]

/-- Sanity check of the matcher: without the stray slash-i suffix the very
same body does match an upper-case well-formed address, so the emptiness above
is caused by the suffix, not by the transcription. -/
theorem emailBody_sound_without_suffix :
    regexMatches (emailBody .endT) "A@B.CO" = true := by decide

/-! ## The dispatch core: the retry loop of src/main.go lines 93-113, identical
in src/unnamed/part_000 lines 59-77 (there it runs on a goroutine and the
exhaustion is logged instead of written as a 500 response).

The relay client (smtp.SendMail) is modelled as an oracle from the attempt
index (number of previous send-once invocations) to success.  The loop keeps
maxRetries = 3, a retryCount starting at 0 and a backoff starting at 1 time
unit (1 second in the source); on failure it increments retryCount, exits
exhausted when retryCount reaches maxRetries, otherwise logs one retry report
carrying the attempt number and the pending backoff, sleeps for the backoff
and doubles it. -/

inductive Outcome where
  | delivered : Outcome
  | exhausted : Outcome
deriving DecidableEq, Repr

/-- Everything observable about one run of the loop: how many send-once
invocations happened, the backoff suspensions in order, the retry reports in
order (attempt number, backoff announced and slept), how many exhaustion
reports were emitted, and the terminal outcome. -/
structure Trace where
  attempts : Nat
  sleeps : List Nat
  retryReports : List (Nat × Nat)
  exhaustedReports : Nat
  outcome : Outcome
deriving DecidableEq, Repr

/-- The loop body.  attemptIdx counts completed send-once invocations, and the
sleeps and reports accumulators are kept in reverse order. -/
def dispatchGo (relay : Nat → Bool) (maxRetries : Nat) (attemptIdx retryCount backoff : Nat)
    (sleeps : List Nat) (reports : List (Nat × Nat)) : Trace :=
  if relay attemptIdx then
    { attempts := attemptIdx + 1, sleeps := sleeps.reverse,
      retryReports := reports.reverse, exhaustedReports := 0, outcome := .delivered }
  else
    if _h : retryCount + 1 ≥ maxRetries then
      { attempts := attemptIdx + 1, sleeps := sleeps.reverse,
        retryReports := reports.reverse, exhaustedReports := 1, outcome := .exhausted }
    else
      dispatchGo relay maxRetries (attemptIdx + 1) (retryCount + 1) (backoff * 2)
        (backoff :: sleeps) ((retryCount + 1, backoff) :: reports)
termination_by maxRetries - retryCount
decreasing_by omega

/-- One run of the dispatch core, with the initial values of the source:
maxRetries 3, retryCount 0, backoff 1. -/
def dispatch (relay : Nat → Bool) : Trace := dispatchGo relay 3 0 0 1 [] []

/-- The synchronous handler of src/main.go surfaces the terminal outcome of
the loop: 200 with the success body when delivered (lines 115-117), a 500
error when exhausted (line 100). -/
def syncResponseStatus (t : Trace) : Nat :=
  match t.outcome with
  | .delivered => 200
  | .exhausted => 500

/-- C1: for a relay client that fails on the first two send-once invocations
and succeeds on the third, the dispatch core terminates delivered after
exactly 3 invocations, suspends for backoffs 1 and then 2 time units between
attempts, and emits exactly one retry report per failed attempt (attempt 1
with backoff 1, attempt 2 with backoff 2) and no exhaustion report. -/
theorem dispatch_two_failures_then_success (relay : Nat → Bool)
    (h0 : relay 0 = false) (h1 : relay 1 = false) (h2 : relay 2 = true) :
    dispatch relay = ⟨3, [1, 2], [(1, 1), (2, 2)], 0, .delivered⟩ := by
  simp [dispatch, dispatchGo, h0, h1, h2]

theorem dispatch_two_failures_then_success_witness :
    (fun n => decide (2 ≤ n)) 0 = false ∧ (fun n => decide (2 ≤ n)) 1 = false ∧
    (fun n => decide (2 ≤ n)) 2 = true ∧
    dispatch (fun n => decide (2 ≤ n)) = ⟨3, [1, 2], [(1, 1), (2, 2)], 0, .delivered⟩ :=
  ⟨rfl, rfl, rfl, dispatch_two_failures_then_success _ rfl rfl rfl⟩

/-- C2: for a relay client that always fails, the dispatch core terminates
exhausted after exactly 3 send-once invocations (no fourth), its suspensions
are exactly the backoffs 1 and 2 (total 3 time units, and none after the
terminal attempt), it emits exactly two retry reports and one exhaustion
report distinct from them, and the synchronous handler of src/main.go
surfaces the exhaustion as a 500 response. -/
theorem dispatch_always_fails_exhausted (relay : Nat → Bool) (h : ∀ n, relay n = false) :
    dispatch relay = ⟨3, [1, 2], [(1, 1), (2, 2)], 1, .exhausted⟩ ∧
    (dispatch relay).sleeps.sum = 1 + 2 ∧
    syncResponseStatus (dispatch relay) = 500 := by
  have hd : dispatch relay = ⟨3, [1, 2], [(1, 1), (2, 2)], 1, .exhausted⟩ := by
    simp [dispatch, dispatchGo, h 0, h 1, h 2]
  exact ⟨hd, by rw [hd]; rfl, by rw [hd]; rfl⟩

theorem dispatch_always_fails_exhausted_witness :
    dispatch (fun _ => false) = ⟨3, [1, 2], [(1, 1), (2, 2)], 1, .exhausted⟩ ∧
    (dispatch (fun _ => false)).sleeps.sum = 1 + 2 ∧
    syncResponseStatus (dispatch (fun _ => false)) = 500 :=
  dispatch_always_fails_exhausted (fun _ => false) (fun _ => rfl)

/-! ## The message formatter, src/main.go lines 194-197 (identical in both
unnamed variants): a Sprintf of a To: line joining the recipients with commas,
a Subject: line, a blank line and the body, all CRLF-terminated. -/

/-- strings.Join with separator comma: empty for no elements, no trailing
separator otherwise. -/
def joinComma : List String → String
  | [] => ""
  | [r] => r
  | r :: rs => r ++ "," ++ joinComma rs

/-- src/main.go formatEmailMessage (the Go function returns these bytes). -/
def formatEmailMessage (recipients : List String) (subject message : String) : String :=
  "To: " ++ joinComma recipients ++ "\r\nSubject: " ++ subject ++ "\r\n\r\n" ++ message ++ "\r\n"

/-- Split a character list at every CRLF pair, to read off the CRLF-terminated
lines of the produced byte sequence. -/
def splitCrlf : List Char → List (List Char)
  | [] => [[]]
  | [c] => [[c]]
  | c :: d :: rest =>
      if c = '\r' && d = '\n' then [] :: splitCrlf rest
      else
        match splitCrlf (d :: rest) with
        | [] => [[c]]
        | h :: t => (c :: h) :: t

/-- C7: for every recipient list, subject and body the formatter emits exactly
the To: line (recipients joined with commas), CRLF, the Subject: line, CRLF, a
blank line (CRLF), the body, CRLF; splitting the spec example at CRLF pairs
yields precisely those lines, and the produced string is the expected one.
The formatter is a pure function, so determinism is inherent. -/
theorem formatEmailMessage_structure :
    (∀ (rs : List String) (s m : String),
      (formatEmailMessage rs s m).data =
        ("To: " ++ joinComma rs).data ++ ['\r', '\n'] ++ ("Subject: " ++ s).data
          ++ ['\r', '\n'] ++ ['\r', '\n'] ++ m.data ++ ['\r', '\n']) ∧
    splitCrlf (formatEmailMessage ["a@b.co", "c@d.co"] "Hi" "Body").data =
      ["To: a@b.co,c@d.co".data, "Subject: Hi".data, [], "Body".data, []] ∧
    formatEmailMessage ["a@b.co", "c@d.co"] "Hi" "Body" =
      "To: a@b.co,c@d.co\r\nSubject: Hi\r\n\r\nBody\r\n" :=
  ⟨fun rs s m => by simp [formatEmailMessage], by decide, rfl⟩

/-! ## Requests, configuration and the three request handlers.

The HTTP method check and the JSON decoding are plumbing shared by all
variants; the handlers are modelled from the point where a decoded
EmailRequest is in hand.  os.Getenv is an environment function returning the
empty string for absent variables.  The Mongo collection of the store-backed
variant is the list of inserted email values. -/

structure EmailRequest where
  subject : String
  message : String
  recipients : List String
deriving DecidableEq, Repr

structure emailConfig where
  senderEmail : String
  password : String
  smtpServer : String
  smtpPort : String
deriving DecidableEq, Repr

/-- src/main.go lines 199-214 (identical in both unnamed variants): read the
four environment variables, fail if any is empty, fail if the sender address
does not pass isValidEmail, otherwise return the configuration.  Because
isValidEmail rejects every string, the second check can never be passed. -/
def getEmailConfig (env : String → String) : Except String emailConfig :=
  if env "SENDER_EMAIL" == "" || env "EMAIL_PASSWORD" == "" ||
      env "SMTP_SERVER" == "" || env "SMTP_PORT" == "" then
    Except.error "one or more environment variables are not set"
  else if !isValidEmail (env "SENDER_EMAIL") then
    Except.error "sender email address is not valid"
  else
    Except.ok ⟨env "SENDER_EMAIL", env "EMAIL_PASSWORD", env "SMTP_SERVER", env "SMTP_PORT"⟩

/-- Whatever the environment holds, getEmailConfig fails: an absent variable
trips the emptiness check, and otherwise the sender address cannot pass the
validator, which rejects every string. -/
theorem getEmailConfig_always_error (env : String → String) :
    getEmailConfig env = Except.error "one or more environment variables are not set" ∨
    getEmailConfig env = Except.error "sender email address is not valid" := by
  unfold getEmailConfig
  by_cases hc : (env "SENDER_EMAIL" == "" || env "EMAIL_PASSWORD" == "" ||
      env "SMTP_SERVER" == "" || env "SMTP_PORT" == "") = true
  · rw [if_pos hc]
    exact Or.inl rfl
  · rw [if_neg hc, if_pos (by rw [isValidEmail_eq_false]; rfl)]
    exact Or.inr rfl

inductive StartupOutcome where
  | fatalStore : StartupOutcome
  | listening : StartupOutcome
deriving DecidableEq, Repr

/-- src/main.go main (lines 199-214 of the file): connect to MongoDB (fatal
when the connection or ping fails), register the two handlers, bind the
listener on port 8080.  main never calls getEmailConfig, so startup does not
depend on the environment at all: the configuration is only read inside
sendEmailHandler, on each request. -/
def startup (storeOk : Bool) : StartupOutcome :=
  if storeOk then .listening else .fatalStore

/-- src/main.go lines 67-78: FindOne with filter email = recipient, and
InsertOne of that document when the lookup reports ErrNoDocuments. -/
def checkThenInsert (store : List String) (addr : String) : List String :=
  if store.contains addr then store else store ++ [addr]

/-- The recipient loop of src/main.go lines 61-79: for each recipient,
validate (returning 400 with that recipient at the first failure, keeping the
store as already mutated), then check-then-insert. -/
def validateAndRecord : List String → List String → Option String × List String
  | [], store => (none, store)
  | r :: rs, store =>
      if isValidEmail r then validateAndRecord rs (checkThenInsert store r)
      else (some r, store)

inductive HRes where
  | badRequest : String → HRes
  | fatal : String → HRes
  | ok : HRes
  | serverError : HRes
deriving DecidableEq, Repr

/-- Result of one run of the store-backed synchronous handler: the response
(or fatal process abort), the final store contents, and how many send-once
invocations happened. -/
structure HandlerRun where
  result : HRes
  store : List String
  relayCalls : Nat
deriving DecidableEq, Repr

/-- src/main.go sendEmailHandler after decoding: run the recipient loop (400
carrying the first invalid recipient), then load the configuration
(log.Fatal aborts the process on error), then run the dispatch loop, writing
200 on delivered and 500 on exhausted. -/
def sendEmailHandler (env : String → String) (relay : Nat → Bool)
    (store : List String) (req : EmailRequest) : HandlerRun :=
  match validateAndRecord req.recipients store with
  | (some r, store2) => ⟨.badRequest r, store2, 0⟩
  | (none, store2) =>
      match getEmailConfig env with
      | .error e => ⟨.fatal e, store2, 0⟩
      | .ok _ =>
          let t := dispatch relay
          ⟨if t.outcome = Outcome.delivered then HRes.ok else HRes.serverError,
            store2, t.attempts⟩

/-- The validation loop of src/unnamed/part_000 lines 37-43 (no store). -/
def firstInvalid : List String → Option String
  | [] => none
  | r :: rs => if isValidEmail r then firstInvalid rs else some r

inductive AsyncRes where
  | badRequest : String → AsyncRes
  | fatal : String → AsyncRes
  | accepted : AsyncRes
deriving DecidableEq, Repr

/-- src/unnamed/part_000 sendEmailHandler after decoding: validate each
recipient (400 at the first failure), load the configuration (log.Fatal on
error), then start the dispatch loop on a goroutine and answer 202 with the
body Email is being processed at once.  The goroutine only logs; its trace is
returned as a separate component, never in the response. -/
def asyncSendEmailHandler (env : String → String) (relay : Nat → Bool)
    (req : EmailRequest) : AsyncRes × Option Trace :=
  match firstInvalid req.recipients with
  | some r => (.badRequest r, none)
  | none =>
      match getEmailConfig env with
      | .error e => (.fatal e, none)
      | .ok _ => (.accepted, some (dispatch relay))

inductive MinRes where
  | fatal : String → MinRes
  | ok : MinRes
  | serverError : MinRes
deriving DecidableEq, Repr

/-- src/unnamed/part_001 sendEmailHandler after decoding: no recipient
validation at all; load the configuration (log.Fatal on error), then a single
send-once invocation, 500 on failure, 200 on success.  The decoded request
only feeds the message and recipient list of that invocation, whose outcome is
the relay oracle, so the result does not depend on the request. -/
def sendEmailHandlerMinimal (env : String → String) (relay : Nat → Bool)
    (_req : EmailRequest) : MinRes × Nat :=
  match getEmailConfig env with
  | .error e => (.fatal e, 0)
  | .ok _ => if relay 0 then (.ok, 1) else (.serverError, 1)

/-! ## Claims about the validator and the handlers. -/

/-- C3: refuted on the code.  The claim says the validator accepts well-formed
addresses such as a@b.co case-insensitively; the Go function returns false on
a@b.co and on A@B.CO (and on every other string), because the two characters
slash and i at the end of the pattern are literals that would have to be
matched after the end-of-text anchor.  Both conjuncts are evaluated by the
kernel directly on the embedded matcher. -/
theorem isValidEmail_rejects_wellformed :
    isValidEmail "a@b.co" = false ∧ isValidEmail "A@B.CO" = false := by
  constructor <;> decide

/-- C8: for a syntactically invalid address (empty, or without an at-sign, or
whose part after the first at-sign has no dot) the validator returns false.
The embedded function is total, which models that the Go function never
raises: its only error branch, a pattern-compile failure in MatchString,
cannot trigger for this constant well-formed pattern.  The hypothesis is not
even needed: isValidEmail returns false on every string. -/
theorem isValidEmail_invalid_false (s : String)
    (_h : s = "" ∨ s.data.contains '@' = false ∨
      ((s.data.dropWhile (fun c => !(c == '@'))).drop 1).contains '.' = false) :
    isValidEmail s = false :=
  isValidEmail_eq_false s

theorem isValidEmail_invalid_false_witness :
    isValidEmail "" = false ∧ isValidEmail "abco" = false ∧ isValidEmail "a@bco" = false :=
  ⟨isValidEmail_invalid_false "" (Or.inl rfl),
    isValidEmail_invalid_false "abco" (Or.inr (Or.inl (by decide))),
    isValidEmail_invalid_false "a@bco" (Or.inr (Or.inr (by decide)))⟩

/-- C4 counterexample: the claim cites the handler of src/unnamed/part_001,
which performs no recipient validation at all.  There, a request whose only
recipient is invalid is not rejected with 400: the handler goes straight to
the configuration load and (here, with an unset environment) fatally aborts,
so no variant-independent validate-before-dispatch guarantee holds. -/
theorem minimal_variant_no_validation_counterexample :
    isValidEmail "abc" = false ∧
    sendEmailHandlerMinimal (fun _ => "") (fun _ => true) ⟨"s", "m", ["abc"]⟩ =
      (MinRes.fatal "one or more environment variables are not set", 0) :=
  ⟨isValidEmail_eq_false _, rfl⟩

/-- C4 amended: in the two variants that do validate (the store-backed
handler of src/main.go and the asynchronous handler of src/unnamed/part_000),
a request containing an invalid recipient is answered 400 naming an invalid
recipient, with zero send-once invocations and no background dispatch; the
minimal variant of src/unnamed/part_001 performs no recipient validation, its
behaviour ignoring the request entirely. -/
theorem validated_variants_reject_invalid_before_relay (env : String → String)
    (relay : Nat → Bool) (store : List String) (req : EmailRequest)
    (h : ∃ r ∈ req.recipients, isValidEmail r = false) :
    (∃ b, (sendEmailHandler env relay store req).result = HRes.badRequest b ∧
      (sendEmailHandler env relay store req).relayCalls = 0) ∧
    (∃ b, (asyncSendEmailHandler env relay req).1 = AsyncRes.badRequest b ∧
      (asyncSendEmailHandler env relay req).2 = none) ∧
    (∀ rs : List String,
      sendEmailHandlerMinimal env relay ⟨req.subject, req.message, rs⟩ =
        sendEmailHandlerMinimal env relay req) := by
  obtain ⟨r, hr, _⟩ := h
  obtain ⟨hd, tl, hcons⟩ : ∃ hd tl, req.recipients = hd :: tl := by
    cases hrec : req.recipients with
    | nil => rw [hrec] at hr; cases hr
    | cons a l => exact ⟨a, l, rfl⟩
  have hv : validateAndRecord (hd :: tl) store = (some hd, store) := by
    simp [validateAndRecord, isValidEmail_eq_false hd]
  have hone : sendEmailHandler env relay store req = ⟨HRes.badRequest hd, store, 0⟩ := by
    unfold sendEmailHandler
    rw [hcons, hv]
  have hfi : firstInvalid (hd :: tl) = some hd := by
    simp [firstInvalid, isValidEmail_eq_false hd]
  have htwo : asyncSendEmailHandler env relay req = (AsyncRes.badRequest hd, none) := by
    unfold asyncSendEmailHandler
    rw [hcons, hfi]
  exact ⟨⟨hd, by rw [hone], by rw [hone]⟩, ⟨hd, by rw [htwo], by rw [htwo]⟩, fun rs => rfl⟩

theorem validated_variants_reject_invalid_before_relay_witness :
    (∃ b, (sendEmailHandler (fun _ => "e") (fun _ => true) [] ⟨"s", "m", ["abc"]⟩).result =
        HRes.badRequest b ∧
      (sendEmailHandler (fun _ => "e") (fun _ => true) [] ⟨"s", "m", ["abc"]⟩).relayCalls = 0) ∧
    (∃ b, (asyncSendEmailHandler (fun _ => "e") (fun _ => true) ⟨"s", "m", ["abc"]⟩).1 =
        AsyncRes.badRequest b ∧
      (asyncSendEmailHandler (fun _ => "e") (fun _ => true) ⟨"s", "m", ["abc"]⟩).2 = none) ∧
    (∀ rs : List String,
      sendEmailHandlerMinimal (fun _ => "e") (fun _ => true) ⟨"s", "m", rs⟩ =
        sendEmailHandlerMinimal (fun _ => "e") (fun _ => true) ⟨"s", "m", ["abc"]⟩) :=
  validated_variants_reject_invalid_before_relay (fun _ => "e") (fun _ => true) []
    ⟨"s", "m", ["abc"]⟩ ⟨"abc", by decide, isValidEmail_eq_false "abc"⟩

/-- C5 counterexample: with every environment variable absent the process
still starts and binds the listener (startup never reads the configuration:
main calls only connectToMongoDB, HandleFunc and ListenAndServe), and the
configuration load with its fatal abort happens inside the handler while a
request is being served — refuting load-once-at-start, abort-before-bind and
no-per-request-load at this concrete input. -/
theorem startup_binds_without_config_counterexample :
    startup true = StartupOutcome.listening ∧
    getEmailConfig (fun _ => "") =
      Except.error "one or more environment variables are not set" ∧
    (sendEmailHandler (fun _ => "") (fun _ => true) [] ⟨"s", "m", []⟩).result =
      HRes.fatal "one or more environment variables are not set" :=
  ⟨rfl, rfl, rfl⟩

/-- C5 amended: the configuration is loaded from the environment on every
request inside the handler, not at process start; whenever a request passes
recipient validation the handler aborts the whole process with one of the two
fatal configuration errors before any send-once invocation — for any
environment, since an absent variable fails the emptiness check and a present
sender fails isValidEmail. -/
theorem handler_loads_config_per_request_and_aborts (env : String → String)
    (relay : Nat → Bool) (store : List String) (req : EmailRequest)
    (h : req.recipients = []) :
    ((sendEmailHandler env relay store req).result =
        HRes.fatal "one or more environment variables are not set" ∨
      (sendEmailHandler env relay store req).result =
        HRes.fatal "sender email address is not valid") ∧
    (sendEmailHandler env relay store req).relayCalls = 0 := by
  have hv : validateAndRecord req.recipients store = (none, store) := by
    rw [h]
    rfl
  unfold sendEmailHandler
  rw [hv]
  rcases getEmailConfig_always_error env with hg | hg
  · rw [hg]
    exact ⟨Or.inl rfl, rfl⟩
  · rw [hg]
    exact ⟨Or.inr rfl, rfl⟩

theorem handler_loads_config_per_request_and_aborts_witness :
    ((sendEmailHandler (fun _ => "v") (fun _ => true) [] ⟨"s", "m", []⟩).result =
        HRes.fatal "one or more environment variables are not set" ∨
      (sendEmailHandler (fun _ => "v") (fun _ => true) [] ⟨"s", "m", []⟩).result =
        HRes.fatal "sender email address is not valid") ∧
    (sendEmailHandler (fun _ => "v") (fun _ => true) [] ⟨"s", "m", []⟩).relayCalls = 0 :=
  handler_loads_config_per_request_and_aborts (fun _ => "v") (fun _ => true) []
    ⟨"s", "m", []⟩ rfl

/-- C6: refuted on the code.  The claim says every valid request gets the 202
accepted response.  A request whose recipient a@b.co is well-formed by the
spec is instead answered 400 by the asynchronous handler, because the broken
validator rejects every address; no dispatch is started.  The two conjuncts
run the handler with a relay that always succeeds and one that always fails:
the response is identical (the relay is never consulted before responding),
but it is the 400, never the 202. -/
theorem async_handler_rejects_wellformed_recipient :
    asyncSendEmailHandler (fun _ => "x") (fun _ => true) ⟨"s", "m", ["a@b.co"]⟩ =
      (AsyncRes.badRequest "a@b.co", none) ∧
    asyncSendEmailHandler (fun _ => "x") (fun _ => false) ⟨"s", "m", ["a@b.co"]⟩ =
      (AsyncRes.badRequest "a@b.co", none) := by
  constructor <;> rfl

/-- C9: the check-then-insert of the idempotency store, run twice in sequence
on an address the store does not contain, stores exactly one record: the
first pass inserts, the second observes the record and is the identity. -/
theorem checkThenInsert_once (store : List String) (addr : String)
    (h : store.contains addr = false) :
    checkThenInsert (checkThenInsert store addr) addr = checkThenInsert store addr ∧
    (checkThenInsert (checkThenInsert store addr) addr).count addr = 1 := by
  have hmem : addr ∉ store := by simpa using h
  have h1 : checkThenInsert store addr = store ++ [addr] := by
    simp [checkThenInsert, hmem]
  have h2 : checkThenInsert (store ++ [addr]) addr = store ++ [addr] := by
    simp [checkThenInsert]
  constructor
  · rw [h1, h2]
  · rw [h1, h2]
    simpa [List.count_append, List.count_eq_zero] using hmem

theorem checkThenInsert_once_witness :
    checkThenInsert (checkThenInsert [] "a@b.co") "a@b.co" = checkThenInsert [] "a@b.co" ∧
    (checkThenInsert (checkThenInsert [] "a@b.co") "a@b.co").count "a@b.co" = 1 :=
  checkThenInsert_once [] "a@b.co" rfl

/-- C10 counterexample: a request whose recipient at position 1 is invalid
(the recipient x; position 0 holds the spec-well-formed a@b.co) is answered
400, but the store IS left unchanged — still empty — contradicting the
claimed earlier insert: the broken validator already rejects the recipient at
position 0, so no insert ever precedes the rejection. -/
theorem store_unchanged_on_rejection_counterexample :
    isValidEmail "x" = false ∧
    sendEmailHandler (fun _ => "e") (fun _ => true) [] ⟨"s", "m", ["a@b.co", "x"]⟩ =
      ⟨HRes.badRequest "a@b.co", [], 0⟩ :=
  ⟨isValidEmail_eq_false _, rfl⟩

/-- C10 amended: on any request with at least one recipient the store-backed
handler rejects at the first recipient (the validator accepts no address), so
the 400 names the head of the list, no check-then-insert has run, and the
store is returned exactly unchanged — in particular nothing is rolled back,
there being no earlier inserts to roll back. -/
theorem rejection_at_first_recipient_store_unchanged (env : String → String)
    (relay : Nat → Bool) (store : List String) (req : EmailRequest)
    (r : String) (rs : List String) (h : req.recipients = r :: rs) :
    sendEmailHandler env relay store req = ⟨HRes.badRequest r, store, 0⟩ := by
  unfold sendEmailHandler
  rw [h]
  simp [validateAndRecord, isValidEmail_eq_false r]

theorem rejection_at_first_recipient_store_unchanged_witness :
    sendEmailHandler (fun _ => "e") (fun _ => false) ["w"] ⟨"s", "m", ["q"]⟩ =
      ⟨HRes.badRequest "q", ["w"], 0⟩ :=
  rejection_at_first_recipient_store_unchanged (fun _ => "e") (fun _ => false) ["w"]
    ⟨"s", "m", ["q"]⟩ "q" [] rfl
